import Mathlib

/-!
Verification development for the inventory systems of a Rust roguelike
(`src/inventory_system.rs`): `ItemCollectionSystem`, `ItemUseSystem` and
`ItemDropSystem`.

The embedding is shallow and executable:
* an entity is an opaque identifier, modelled as `Nat`;
* a component storage is a function `Entity → Option Comp`;
* each system's `run` is translated into a pure state transformer over a
  `World` record holding every storage the three systems read or write;
* machine integers (`i32`) are modelled as `Int`;
* the `specs` resources that are only read (`player_entity`, `Map`, the
  read-only effect storages) are bundled into a context record `Ctx`;
* `rltk::field_of_view` is an external collaborator, modelled as a black-box
  field of the map record;
* the source unwraps every `Name` lookup it performs, asserting presence, so
  the model takes `names` as a total function `Entity → String`;
* the one fallible operation the claims are about —
  `positions.get(entity).unwrap()` in `ItemDropSystem::run`, which panics when
  the dropper has no `Position` — is modelled by making the drop pass return
  `Option World`, with `none` for the panic.
-/

namespace RogueInv

abbrev Entity := Nat

structure Point where
  x : Int
  y : Int
deriving DecidableEq, Repr

structure Position where
  x : Int
  y : Int
deriving DecidableEq, Repr

structure CombatStats where
  max_hp : Int
  hp : Int
deriving DecidableEq, Repr

structure ProvidesHealing where
  heal_amount : Int
deriving DecidableEq, Repr

structure InflictsDamage where
  damage : Int
deriving DecidableEq, Repr

structure AreaOfEffect where
  radius : Int
deriving DecidableEq, Repr

structure Confusion where
  turns : Int
deriving DecidableEq, Repr

structure InBackpack where
  owner : Entity
deriving DecidableEq, Repr

structure SufferDamage where
  amount : Int
deriving DecidableEq, Repr

structure WantsToPickupItem where
  collected_by : Entity
  item : Entity
deriving DecidableEq, Repr

structure WantsToUseItem where
  item : Entity
  target : Option Point
deriving DecidableEq, Repr

structure WantsToDropItem where
  item : Entity
deriving DecidableEq, Repr

/-- The map collaborator.  `tile_content` is the spatial index
(occupants of a tile, by flat index), `fov` is the black-box visibility query
`rltk::field_of_view(origin, radius, map)`. -/
structure Map where
  width : Int
  height : Int
  tile_content : Nat → List Entity
  fov : Point → Int → List Point

/-- `Map::xy_idx`: flat index of a grid cell (`y * width + x`, cast to
`usize`). -/
def Map.xy_idx (m : Map) (x y : Int) : Nat :=
  (y * m.width + x).toNat

/-- Point update of a component storage. -/
def upd {α : Type} (f : Entity → Option α) (e : Entity) (v : Option α) :
    Entity → Option α :=
  fun x => if x = e then v else f x

/-- Modelled from the spec: `SufferDamage::new_damage` is defined in the
repository outside the provided sources (only its call site is in
`src/inventory_system.rs`).  Per the spec, the pending-damage queue is a
running total per target and `new_damage` accumulates `amount` into the
victim's total additively, never replacing prior accumulation; a victim with
no entry yet starts from the given amount. -/
def SufferDamage.new_damage (store : Entity → Option SufferDamage)
    (victim : Entity) (amount : Int) : Entity → Option SufferDamage :=
  match store victim with
  | some suffering => upd store victim (some ⟨suffering.amount + amount⟩)
  | none => upd store victim (some ⟨amount⟩)

/-- All component storages and resources the three systems write. -/
structure World where
  gamelog : List String
  wants_pickup : List WantsToPickupItem
  wants_drop : List (Entity × WantsToDropItem)
  wants_use : List (Entity × WantsToUseItem)
  positions : Entity → Option Position
  backpack : Entity → Option InBackpack
  combat_stats : Entity → Option CombatStats
  suffer_damage : Entity → Option SufferDamage
  confused : Entity → Option Confusion
  deleted : List Entity

/-- The read-only resources of `ItemUseSystem::run`. -/
structure Ctx where
  player_entity : Entity
  map : Map
  names : Entity → String
  consumables : Entity → Bool
  healing : Entity → Option ProvidesHealing
  inflict_damage : Entity → Option InflictsDamage
  aoe : Entity → Option AreaOfEffect

/-! ## ItemCollectionSystem -/

def pickupLogLine (name : String) : String :=
  "You pick up the " ++ name ++ "."

/-- Body of the loop of `ItemCollectionSystem::run`: remove the item's
`Position`, insert `InBackpack { owner: collected_by }`, log if the collector
is the player. -/
def pickupOne (player_entity : Entity) (names : Entity → String)
    (st : World) (pickup : WantsToPickupItem) : World :=
  let st := { st with
    positions := upd st.positions pickup.item none,
    backpack := upd st.backpack pickup.item (some ⟨pickup.collected_by⟩) }
  if pickup.collected_by = player_entity then
    { st with gamelog := st.gamelog ++ [pickupLogLine (names pickup.item)] }
  else st

/-- `ItemCollectionSystem::run`: process every pickup intent, then clear the
intent storage. -/
def ItemCollectionSystem.run (player_entity : Entity)
    (names : Entity → String) (st : World) : World :=
  let st1 := st.wants_pickup.foldl (pickupOne player_entity names) st
  { st1 with wants_pickup := [] }

/-! ## ItemUseSystem -/

/-- The targeting block of `ItemUseSystem::run` (the `match useitem.target`).
With no aim point the code pushes `*player_entity`; with an aim point and no
`AreaOfEffect` it pushes the occupants of the aimed tile; with an
`AreaOfEffect` it filters the field of view to the strict interior of the map
and pushes the occupants of every surviving tile. -/
def resolveTargets (c : Ctx) (useitem : WantsToUseItem) : List Entity :=
  match useitem.target with
  | none => [c.player_entity]
  | some target =>
    match c.aoe useitem.item with
    | none =>
      let idx := c.map.xy_idx target.x target.y
      c.map.tile_content idx
    | some area_affect =>
      let blast_tiles := (c.map.fov target area_affect.radius).filter
        (fun p => decide (0 < p.x) && decide (p.x < c.map.width - 1) &&
                  decide (0 < p.y) && decide (p.y < c.map.height - 1))
      blast_tiles.flatMap
        (fun tile_idx => c.map.tile_content (c.map.xy_idx tile_idx.x tile_idx.y))

def healLogLine (name : String) (heal_amount : Int) : String :=
  "You use the " ++ name ++ ", healing " ++ toString heal_amount ++ " hp."

/-- Body of the healing loop: if the target has combat stats, set
`hp = min(max_hp, hp + heal_amount)` and log if the acting entity is the
player. -/
def healStep (c : Ctx) (entity : Entity) (item : Entity)
    (healer : ProvidesHealing) (st : World) (target : Entity) : World :=
  match st.combat_stats target with
  | none => st
  | some stats =>
    let st := { st with
      combat_stats := upd st.combat_stats target
        (some { stats with hp := min stats.max_hp (stats.hp + healer.heal_amount) }) }
    if entity = c.player_entity then
      { st with gamelog := st.gamelog ++ [healLogLine (c.names item) healer.heal_amount] }
    else st

def damageLogLine (item_name target_name : String) (damage : Int) : String :=
  "You use " ++ item_name ++ " on " ++ target_name ++ ", inflicting " ++
    toString damage ++ " hp."

/-- Body of the damage loop: enqueue `damage` for the target via
`SufferDamage::new_damage`, log if the acting entity is the player, and set
`used_item` (the `Bool` component of the pair) to `true`. -/
def damageStep (c : Ctx) (entity : Entity) (item : Entity)
    (damage : InflictsDamage) (p : Bool × World) (target : Entity) :
    Bool × World :=
  let st := p.2
  let st := { st with
    suffer_damage := SufferDamage.new_damage st.suffer_damage target damage.damage }
  let st :=
    if entity = c.player_entity then
      { st with gamelog := st.gamelog ++
          [damageLogLine (c.names item) (c.names target) damage.damage] }
    else st
  (true, st)

def confusionLogLine (item_name mob_name : String) : String :=
  "You use " ++ item_name ++ " on " ++ mob_name ++ ", confusing them."

/-- Body of the confusion loop: set `used_item` to `true`, stage
`(target, turns)` in `add_confusion`, log if the acting entity is the
player.  Nothing is inserted into the `Confusion` storage here. -/
def confusionStep (c : Ctx) (entity : Entity) (item : Entity)
    (confusion : Confusion) (p : Bool × List (Entity × Int) × World)
    (target : Entity) : Bool × List (Entity × Int) × World :=
  let st := p.2.2
  let st :=
    if entity = c.player_entity then
      { st with gamelog := st.gamelog ++
          [confusionLogLine (c.names item) (c.names target)] }
    else st
  (true, p.2.1 ++ [(target, confusion.turns)], st)

/-- The healing block of `ItemUseSystem::run` (the `match item_heals`): with
no `ProvidesHealing` on the item the state is untouched, otherwise the
healing loop body runs for every target. -/
def healPhase (c : Ctx) (entity item : Entity) (targets : List Entity)
    (st : World) : World :=
  match c.healing item with
  | none => st
  | some healer => targets.foldl (healStep c entity item healer) st

/-- The damage block of `ItemUseSystem::run` (the `match item_damages`),
together with the value of `used_item` after the block.  `used_item` is
`true` coming in; a damage effect resets it to `false` and each processed
target sets it back to `true`. -/
def damagePhase (c : Ctx) (entity item : Entity) (targets : List Entity)
    (st : World) : Bool × World :=
  match c.inflict_damage item with
  | none => (true, st)
  | some damage =>
    targets.foldl (damageStep c entity item damage) (false, st)

/-- The confusion-staging block of `ItemUseSystem::run` (the
`match causes_confusion`): the effect is read from the live `Confusion`
storage of the incoming state; with an effect present, `used_item` is reset
to `false`, `add_confusion` starts empty, and the staging loop body runs for
every target. -/
def confusionPhase (c : Ctx) (entity item : Entity) (targets : List Entity)
    (p2 : Bool × World) : Bool × List (Entity × Int) × World :=
  match p2.2.confused item with
  | none => (p2.1, [], p2.2)
  | some confusion =>
    targets.foldl (confusionStep c entity item confusion) (false, [], p2.2)

/-- The commit loop `for mob in add_confusion.iter() { confused.insert(..) }`
(`insert` overwrites any existing `Confusion` status). -/
def commitConfusion (l : List (Entity × Int))
    (f : Entity → Option Confusion) : Entity → Option Confusion :=
  l.foldl (fun f mob => upd f mob.1 (some ⟨mob.2⟩)) f

/-- Body of the outer loop of `ItemUseSystem::run`, for one
`(entity, useitem)` pair: targeting, healing, damage, confusion staging,
confusion commit, and the consumable deletion decision. -/
def useOne (c : Ctx) (st0 : World) (iv : Entity × WantsToUseItem) : World :=
  let entity := iv.1
  let useitem := iv.2
  let targets := resolveTargets c useitem
  let st1 := healPhase c entity useitem.item targets st0
  let p3 := confusionPhase c entity useitem.item targets
    (damagePhase c entity useitem.item targets st1)
  let st3 := p3.2.2
  let st4 := { st3 with confused := commitConfusion p3.2.1 st3.confused }
  -- Delete if consumable
  if p3.1 && c.consumables useitem.item then
    { st4 with deleted := st4.deleted ++ [useitem.item] }
  else st4

/-- `ItemUseSystem::run`: process every `(entity, useitem)` pair.  The
use-intent storage is not cleared. -/
def ItemUseSystem.run (c : Ctx) (st : World) : World :=
  st.wants_use.foldl (useOne c) st

/-! ## ItemDropSystem -/

def dropLogLine (name : String) : String :=
  "You drop the " ++ name ++ "."

/-- Body of the loop of `ItemDropSystem::run`: read the dropper's `Position`
(`.unwrap()` — `none` models the panic), insert a copy as the item's
`Position`, remove the item's `InBackpack`, log if the dropper is the
player. -/
def dropOne (player_entity : Entity) (names : Entity → String)
    (st : World) (iv : Entity × WantsToDropItem) : Option World :=
  let entity := iv.1
  let to_drop := iv.2
  match st.positions entity with
  | none => none
  | some dropped_pos =>
    let dropper_pos : Position := ⟨dropped_pos.x, dropped_pos.y⟩
    let st := { st with
      positions := upd st.positions to_drop.item
        (some ⟨dropper_pos.x, dropper_pos.y⟩),
      backpack := upd st.backpack to_drop.item none }
    if entity = player_entity then
      some { st with gamelog := st.gamelog ++ [dropLogLine (names to_drop.item)] }
    else some st

/-- The loop of `ItemDropSystem::run` over a list of drop intents, followed by
`wants_drop.clear()`.  A panic in `dropOne` aborts the whole pass. -/
def dropList (player_entity : Entity) (names : Entity → String) :
    List (Entity × WantsToDropItem) → World → Option World
  | [], st => some { st with wants_drop := [] }
  | iv :: rest, st =>
    match dropOne player_entity names st iv with
    | none => none
    | some st1 => dropList player_entity names rest st1

/-- `ItemDropSystem::run`. -/
def ItemDropSystem.run (player_entity : Entity) (names : Entity → String)
    (st : World) : Option World :=
  dropList player_entity names st.wants_drop st

/-! ## General lemmas about the building blocks -/

theorem upd_self {α : Type} (f : Entity → Option α) (e : Entity)
    (v : Option α) : upd f e v e = v := by
  simp [upd]

theorem upd_ne {α : Type} (f : Entity → Option α) (e x : Entity)
    (v : Option α) (h : x ≠ e) : upd f e v x = f x := by
  simp [upd, h]

/-- A fold whose step preserves a projection preserves it globally. -/
theorem foldl_proj_eq {σ α β : Type} (proj : σ → β) (f : σ → α → σ)
    (h : ∀ s a, proj (f s a) = proj s) (l : List α) (s : σ) :
    proj (l.foldl f s) = proj s := by
  induction l generalizing s with
  | nil => rfl
  | cons a t ih => rw [List.foldl_cons, ih, h]

/-- A fold whose step always sets the boolean flag leaves the flag set iff it
was set initially or the list is non-empty. -/
theorem foldl_flag {σ α : Type} (f : Bool × σ → α → Bool × σ)
    (h : ∀ p a, (f p a).1 = true) (l : List α) (p : Bool × σ) :
    (l.foldl f p).1 = (p.1 || !l.isEmpty) := by
  induction l generalizing p with
  | nil => simp
  | cons a t ih =>
    rw [List.foldl_cons, ih, h]
    simp

/-- A fold whose step appends one staged pair per element stages exactly the
element list. -/
theorem foldl_staged {σ : Type} (turns : Int)
    (f : Bool × List (Entity × Int) × σ → Entity → Bool × List (Entity × Int) × σ)
    (h : ∀ p t, (f p t).2.1 = p.2.1 ++ [(t, turns)]) (l : List Entity)
    (p : Bool × List (Entity × Int) × σ) :
    (l.foldl f p).2.1 = p.2.1 ++ l.map (fun t => (t, turns)) := by
  induction l generalizing p with
  | nil => simp
  | cons a t ih =>
    rw [List.foldl_cons, ih, h]
    simp

/-- Committing a list of confusion pairs that never mentions `t` does not
change `t`'s status. -/
theorem commitConfusion_not_mem (l : List (Entity × Int))
    (f : Entity → Option Confusion) (t : Entity) (h : ∀ p ∈ l, p.1 ≠ t) :
    commitConfusion l f t = f t := by
  induction l generalizing f with
  | nil => rfl
  | cons a rest ih =>
    rw [commitConfusion, List.foldl_cons]
    rw [show (List.foldl (fun f mob => upd f mob.1 (some ⟨mob.2⟩))
        (upd f a.1 (some ⟨a.2⟩)) rest) = commitConfusion rest (upd f a.1 (some ⟨a.2⟩)) from rfl]
    rw [ih _ (fun p hp => h p (List.mem_cons_of_mem a hp))]
    exact upd_ne _ _ _ _ (Ne.symm (h a (List.mem_cons_self a rest)))

/-- Committing pairs that all carry the same payload sets every mentioned
target to that payload. -/
theorem commitConfusion_mem_const (l : List Entity) (v : Int)
    (f : Entity → Option Confusion) (t : Entity) (h : t ∈ l) :
    commitConfusion (l.map (fun x => (x, v))) f t = some ⟨v⟩ := by
  induction l generalizing f with
  | nil => cases h
  | cons a rest ih =>
    rw [List.map_cons, commitConfusion, List.foldl_cons]
    rw [show (List.foldl (fun f mob => upd f mob.1 (some ⟨mob.2⟩))
        (upd f a (some ⟨v⟩)) (rest.map (fun x => (x, v)))) =
        commitConfusion (rest.map (fun x => (x, v))) (upd f a (some ⟨v⟩)) from rfl]
    by_cases ht : t ∈ rest
    · exact ih _ ht
    · have hta : t = a := by
        rcases List.mem_cons.mp h with h1 | h2
        · exact h1
        · exact absurd h2 ht
      rw [commitConfusion_not_mem _ _ _ (by
        intro p hp
        rcases List.mem_map.mp hp with ⟨x, hx, rfl⟩
        intro hxa
        have hxt : x = t := hxa
        exact ht (hxt ▸ hx))]
      subst hta
      exact upd_self _ _ _

/-! ## Frame lemmas for the effect loop bodies -/

theorem healStep_frame (c : Ctx) (entity item : Entity)
    (healer : ProvidesHealing) (st : World) (target : Entity) :
    (healStep c entity item healer st target).positions = st.positions ∧
    (healStep c entity item healer st target).backpack = st.backpack ∧
    (healStep c entity item healer st target).suffer_damage = st.suffer_damage ∧
    (healStep c entity item healer st target).confused = st.confused ∧
    (healStep c entity item healer st target).deleted = st.deleted ∧
    (healStep c entity item healer st target).wants_use = st.wants_use ∧
    (healStep c entity item healer st target).wants_drop = st.wants_drop ∧
    (healStep c entity item healer st target).wants_pickup = st.wants_pickup := by
  unfold healStep
  cases hst : st.combat_stats target with
  | none => simp
  | some stats => by_cases h : entity = c.player_entity <;> simp [h]

/-- `healStep` writes exactly the `min`-capped hp of a target that has combat
stats, and nothing else to the stats storage. -/
theorem healStep_stats (c : Ctx) (entity item : Entity)
    (healer : ProvidesHealing) (st : World) (target : Entity) :
    (healStep c entity item healer st target).combat_stats =
      (match st.combat_stats target with
       | none => st.combat_stats
       | some stats => upd st.combat_stats target
           (some { stats with hp := min stats.max_hp (stats.hp + healer.heal_amount) })) := by
  unfold healStep
  cases hst : st.combat_stats target with
  | none => simp
  | some stats => by_cases h : entity = c.player_entity <;> simp [h]

theorem damageStep_frame (c : Ctx) (entity item : Entity)
    (damage : InflictsDamage) (p : Bool × World) (target : Entity) :
    (damageStep c entity item damage p target).2.positions = p.2.positions ∧
    (damageStep c entity item damage p target).2.backpack = p.2.backpack ∧
    (damageStep c entity item damage p target).2.combat_stats = p.2.combat_stats ∧
    (damageStep c entity item damage p target).2.confused = p.2.confused ∧
    (damageStep c entity item damage p target).2.deleted = p.2.deleted ∧
    (damageStep c entity item damage p target).2.wants_use = p.2.wants_use ∧
    (damageStep c entity item damage p target).2.wants_drop = p.2.wants_drop ∧
    (damageStep c entity item damage p target).2.wants_pickup = p.2.wants_pickup ∧
    (damageStep c entity item damage p target).1 = true := by
  unfold damageStep
  by_cases h : entity = c.player_entity <;> simp [h]

/-- `damageStep` writes exactly one `new_damage` contribution to the pending
damage store. -/
theorem damageStep_suffer (c : Ctx) (entity item : Entity)
    (damage : InflictsDamage) (p : Bool × World) (target : Entity) :
    (damageStep c entity item damage p target).2.suffer_damage =
      SufferDamage.new_damage p.2.suffer_damage target damage.damage := by
  unfold damageStep
  by_cases h : entity = c.player_entity <;> simp [h]

theorem damageStep_flag (c : Ctx) (entity item : Entity)
    (damage : InflictsDamage) (p : Bool × World) (target : Entity) :
    (damageStep c entity item damage p target).1 = true := by
  unfold damageStep
  by_cases h : entity = c.player_entity <;> simp [h]

theorem confusionStep_frame (c : Ctx) (entity item : Entity)
    (confusion : Confusion) (p : Bool × List (Entity × Int) × World)
    (target : Entity) :
    (confusionStep c entity item confusion p target).2.2.positions = p.2.2.positions ∧
    (confusionStep c entity item confusion p target).2.2.backpack = p.2.2.backpack ∧
    (confusionStep c entity item confusion p target).2.2.combat_stats = p.2.2.combat_stats ∧
    (confusionStep c entity item confusion p target).2.2.suffer_damage = p.2.2.suffer_damage ∧
    (confusionStep c entity item confusion p target).2.2.confused = p.2.2.confused ∧
    (confusionStep c entity item confusion p target).2.2.deleted = p.2.2.deleted ∧
    (confusionStep c entity item confusion p target).2.2.wants_use = p.2.2.wants_use ∧
    (confusionStep c entity item confusion p target).2.2.wants_drop = p.2.2.wants_drop ∧
    (confusionStep c entity item confusion p target).2.2.wants_pickup = p.2.2.wants_pickup ∧
    (confusionStep c entity item confusion p target).2.1 = p.2.1 ++ [(target, confusion.turns)] ∧
    (confusionStep c entity item confusion p target).1 = true := by
  unfold confusionStep
  by_cases h : entity = c.player_entity <;> simp [h]

/-! ## Frame lemmas for the effect phases -/

theorem healPhase_positions (c : Ctx) (e it : Entity) (ts : List Entity)
    (st : World) : (healPhase c e it ts st).positions = st.positions := by
  unfold healPhase
  cases c.healing it with
  | none => rfl
  | some healer =>
    exact foldl_proj_eq World.positions _
      (fun s a => (healStep_frame c e it healer s a).1) ts st

theorem healPhase_backpack (c : Ctx) (e it : Entity) (ts : List Entity)
    (st : World) : (healPhase c e it ts st).backpack = st.backpack := by
  unfold healPhase
  cases c.healing it with
  | none => rfl
  | some healer =>
    exact foldl_proj_eq World.backpack _
      (fun s a => (healStep_frame c e it healer s a).2.1) ts st

theorem healPhase_suffer (c : Ctx) (e it : Entity) (ts : List Entity)
    (st : World) : (healPhase c e it ts st).suffer_damage = st.suffer_damage := by
  unfold healPhase
  cases c.healing it with
  | none => rfl
  | some healer =>
    exact foldl_proj_eq World.suffer_damage _
      (fun s a => (healStep_frame c e it healer s a).2.2.1) ts st

theorem healPhase_confused (c : Ctx) (e it : Entity) (ts : List Entity)
    (st : World) : (healPhase c e it ts st).confused = st.confused := by
  unfold healPhase
  cases c.healing it with
  | none => rfl
  | some healer =>
    exact foldl_proj_eq World.confused _
      (fun s a => (healStep_frame c e it healer s a).2.2.2.1) ts st

theorem healPhase_deleted (c : Ctx) (e it : Entity) (ts : List Entity)
    (st : World) : (healPhase c e it ts st).deleted = st.deleted := by
  unfold healPhase
  cases c.healing it with
  | none => rfl
  | some healer =>
    exact foldl_proj_eq World.deleted _
      (fun s a => (healStep_frame c e it healer s a).2.2.2.2.1) ts st

theorem healPhase_wants_use (c : Ctx) (e it : Entity) (ts : List Entity)
    (st : World) : (healPhase c e it ts st).wants_use = st.wants_use := by
  unfold healPhase
  cases c.healing it with
  | none => rfl
  | some healer =>
    exact foldl_proj_eq World.wants_use _
      (fun s a => (healStep_frame c e it healer s a).2.2.2.2.2.1) ts st

theorem healPhase_wants_drop (c : Ctx) (e it : Entity) (ts : List Entity)
    (st : World) : (healPhase c e it ts st).wants_drop = st.wants_drop := by
  unfold healPhase
  cases c.healing it with
  | none => rfl
  | some healer =>
    exact foldl_proj_eq World.wants_drop _
      (fun s a => (healStep_frame c e it healer s a).2.2.2.2.2.2.1) ts st

theorem healPhase_wants_pickup (c : Ctx) (e it : Entity) (ts : List Entity)
    (st : World) : (healPhase c e it ts st).wants_pickup = st.wants_pickup := by
  unfold healPhase
  cases c.healing it with
  | none => rfl
  | some healer =>
    exact foldl_proj_eq World.wants_pickup _
      (fun s a => (healStep_frame c e it healer s a).2.2.2.2.2.2.2) ts st

theorem damagePhase_positions (c : Ctx) (e it : Entity) (ts : List Entity)
    (st : World) : (damagePhase c e it ts st).2.positions = st.positions := by
  unfold damagePhase
  cases c.inflict_damage it with
  | none => rfl
  | some damage =>
    exact foldl_proj_eq (fun q => q.2.positions) _
      (fun s a => (damageStep_frame c e it damage s a).1) ts (false, st)

theorem damagePhase_backpack (c : Ctx) (e it : Entity) (ts : List Entity)
    (st : World) : (damagePhase c e it ts st).2.backpack = st.backpack := by
  unfold damagePhase
  cases c.inflict_damage it with
  | none => rfl
  | some damage =>
    exact foldl_proj_eq (fun q => q.2.backpack) _
      (fun s a => (damageStep_frame c e it damage s a).2.1) ts (false, st)

theorem damagePhase_stats (c : Ctx) (e it : Entity) (ts : List Entity)
    (st : World) : (damagePhase c e it ts st).2.combat_stats = st.combat_stats := by
  unfold damagePhase
  cases c.inflict_damage it with
  | none => rfl
  | some damage =>
    exact foldl_proj_eq (fun q => q.2.combat_stats) _
      (fun s a => (damageStep_frame c e it damage s a).2.2.1) ts (false, st)

theorem damagePhase_confused (c : Ctx) (e it : Entity) (ts : List Entity)
    (st : World) : (damagePhase c e it ts st).2.confused = st.confused := by
  unfold damagePhase
  cases c.inflict_damage it with
  | none => rfl
  | some damage =>
    exact foldl_proj_eq (fun q => q.2.confused) _
      (fun s a => (damageStep_frame c e it damage s a).2.2.2.1) ts (false, st)

theorem damagePhase_deleted (c : Ctx) (e it : Entity) (ts : List Entity)
    (st : World) : (damagePhase c e it ts st).2.deleted = st.deleted := by
  unfold damagePhase
  cases c.inflict_damage it with
  | none => rfl
  | some damage =>
    exact foldl_proj_eq (fun q => q.2.deleted) _
      (fun s a => (damageStep_frame c e it damage s a).2.2.2.2.1) ts (false, st)

theorem damagePhase_wants_use (c : Ctx) (e it : Entity) (ts : List Entity)
    (st : World) : (damagePhase c e it ts st).2.wants_use = st.wants_use := by
  unfold damagePhase
  cases c.inflict_damage it with
  | none => rfl
  | some damage =>
    exact foldl_proj_eq (fun q => q.2.wants_use) _
      (fun s a => (damageStep_frame c e it damage s a).2.2.2.2.2.1) ts (false, st)

theorem damagePhase_wants_drop (c : Ctx) (e it : Entity) (ts : List Entity)
    (st : World) : (damagePhase c e it ts st).2.wants_drop = st.wants_drop := by
  unfold damagePhase
  cases c.inflict_damage it with
  | none => rfl
  | some damage =>
    exact foldl_proj_eq (fun q => q.2.wants_drop) _
      (fun s a => (damageStep_frame c e it damage s a).2.2.2.2.2.2.1) ts (false, st)

theorem damagePhase_wants_pickup (c : Ctx) (e it : Entity) (ts : List Entity)
    (st : World) : (damagePhase c e it ts st).2.wants_pickup = st.wants_pickup := by
  unfold damagePhase
  cases c.inflict_damage it with
  | none => rfl
  | some damage =>
    exact foldl_proj_eq (fun q => q.2.wants_pickup) _
      (fun s a => (damageStep_frame c e it damage s a).2.2.2.2.2.2.2.1) ts (false, st)

/-- The value of `used_item` after the damage block. -/
theorem damagePhase_flag (c : Ctx) (e it : Entity) (ts : List Entity)
    (st : World) :
    (damagePhase c e it ts st).1 =
      (if (c.inflict_damage it).isSome then !ts.isEmpty else true) := by
  unfold damagePhase
  cases c.inflict_damage it with
  | none => simp
  | some damage =>
    rw [foldl_flag _ (fun p a => damageStep_flag c e it damage p a) ts (false, st)]
    simp

theorem confusionPhase_positions (c : Ctx) (e it : Entity) (ts : List Entity)
    (p2 : Bool × World) :
    (confusionPhase c e it ts p2).2.2.positions = p2.2.positions := by
  unfold confusionPhase
  cases hc : p2.2.confused it with
  | none => rfl
  | some confusion =>
    exact foldl_proj_eq (fun q => q.2.2.positions) _
      (fun s a => (confusionStep_frame c e it confusion s a).1) ts (false, [], p2.2)

theorem confusionPhase_backpack (c : Ctx) (e it : Entity) (ts : List Entity)
    (p2 : Bool × World) :
    (confusionPhase c e it ts p2).2.2.backpack = p2.2.backpack := by
  unfold confusionPhase
  cases hc : p2.2.confused it with
  | none => rfl
  | some confusion =>
    exact foldl_proj_eq (fun q => q.2.2.backpack) _
      (fun s a => (confusionStep_frame c e it confusion s a).2.1) ts (false, [], p2.2)

theorem confusionPhase_stats (c : Ctx) (e it : Entity) (ts : List Entity)
    (p2 : Bool × World) :
    (confusionPhase c e it ts p2).2.2.combat_stats = p2.2.combat_stats := by
  unfold confusionPhase
  cases hc : p2.2.confused it with
  | none => rfl
  | some confusion =>
    exact foldl_proj_eq (fun q => q.2.2.combat_stats) _
      (fun s a => (confusionStep_frame c e it confusion s a).2.2.1) ts (false, [], p2.2)

theorem confusionPhase_suffer (c : Ctx) (e it : Entity) (ts : List Entity)
    (p2 : Bool × World) :
    (confusionPhase c e it ts p2).2.2.suffer_damage = p2.2.suffer_damage := by
  unfold confusionPhase
  cases hc : p2.2.confused it with
  | none => rfl
  | some confusion =>
    exact foldl_proj_eq (fun q => q.2.2.suffer_damage) _
      (fun s a => (confusionStep_frame c e it confusion s a).2.2.2.1) ts (false, [], p2.2)

theorem confusionPhase_confused (c : Ctx) (e it : Entity) (ts : List Entity)
    (p2 : Bool × World) :
    (confusionPhase c e it ts p2).2.2.confused = p2.2.confused := by
  unfold confusionPhase
  cases hc : p2.2.confused it with
  | none => rfl
  | some confusion =>
    exact foldl_proj_eq (fun q => q.2.2.confused) _
      (fun s a => (confusionStep_frame c e it confusion s a).2.2.2.2.1) ts (false, [], p2.2)

theorem confusionPhase_deleted (c : Ctx) (e it : Entity) (ts : List Entity)
    (p2 : Bool × World) :
    (confusionPhase c e it ts p2).2.2.deleted = p2.2.deleted := by
  unfold confusionPhase
  cases hc : p2.2.confused it with
  | none => rfl
  | some confusion =>
    exact foldl_proj_eq (fun q => q.2.2.deleted) _
      (fun s a => (confusionStep_frame c e it confusion s a).2.2.2.2.2.1) ts (false, [], p2.2)

theorem confusionPhase_wants_use (c : Ctx) (e it : Entity) (ts : List Entity)
    (p2 : Bool × World) :
    (confusionPhase c e it ts p2).2.2.wants_use = p2.2.wants_use := by
  unfold confusionPhase
  cases hc : p2.2.confused it with
  | none => rfl
  | some confusion =>
    exact foldl_proj_eq (fun q => q.2.2.wants_use) _
      (fun s a => (confusionStep_frame c e it confusion s a).2.2.2.2.2.2.1) ts (false, [], p2.2)

theorem confusionPhase_wants_drop (c : Ctx) (e it : Entity) (ts : List Entity)
    (p2 : Bool × World) :
    (confusionPhase c e it ts p2).2.2.wants_drop = p2.2.wants_drop := by
  unfold confusionPhase
  cases hc : p2.2.confused it with
  | none => rfl
  | some confusion =>
    exact foldl_proj_eq (fun q => q.2.2.wants_drop) _
      (fun s a => (confusionStep_frame c e it confusion s a).2.2.2.2.2.2.2.1) ts (false, [], p2.2)

theorem confusionPhase_wants_pickup (c : Ctx) (e it : Entity) (ts : List Entity)
    (p2 : Bool × World) :
    (confusionPhase c e it ts p2).2.2.wants_pickup = p2.2.wants_pickup := by
  unfold confusionPhase
  cases hc : p2.2.confused it with
  | none => rfl
  | some confusion =>
    exact foldl_proj_eq (fun q => q.2.2.wants_pickup) _
      (fun s a => (confusionStep_frame c e it confusion s a).2.2.2.2.2.2.2.2.1) ts (false, [], p2.2)

/-- The value of `used_item` after the confusion block. -/
theorem confusionPhase_flag (c : Ctx) (e it : Entity) (ts : List Entity)
    (p2 : Bool × World) :
    (confusionPhase c e it ts p2).1 =
      (if (p2.2.confused it).isSome then !ts.isEmpty else p2.1) := by
  unfold confusionPhase
  cases hc : p2.2.confused it with
  | none => simp
  | some confusion =>
    rw [foldl_flag _
      (fun p a => (confusionStep_frame c e it confusion p a).2.2.2.2.2.2.2.2.2.2)
      ts (false, [], p2.2)]
    simp

/-- The list staged by the confusion block when the item has a confusion
effect: one `(target, turns)` pair per resolved target, in order. -/
theorem confusionPhase_staged (c : Ctx) (e it : Entity) (ts : List Entity)
    (p2 : Bool × World) (confusion : Confusion)
    (hc : p2.2.confused it = some confusion) :
    (confusionPhase c e it ts p2).2.1 = ts.map (fun t => (t, confusion.turns)) := by
  unfold confusionPhase
  rw [hc]
  rw [foldl_staged confusion.turns _
    (fun p t => (confusionStep_frame c e it confusion p t).2.2.2.2.2.2.2.2.2.1)
    ts (false, [], p2.2)]
  simp

/-! ## Lemmas about one whole use-intent -/

/-- The consumption decision as the spec words it: an item with a damage or a
confusion effect counts as used iff the resolved target set is non-empty; an
item with neither counts as used unconditionally. -/
def usedItemSpec (c : Ctx) (st : World) (useitem : WantsToUseItem) : Bool :=
  if (c.inflict_damage useitem.item).isSome || (st.confused useitem.item).isSome then
    !(resolveTargets c useitem).isEmpty
  else true

theorem useOne_flag (c : Ctx) (st : World) (iv : Entity × WantsToUseItem) :
    (confusionPhase c iv.1 iv.2.item (resolveTargets c iv.2)
        (damagePhase c iv.1 iv.2.item (resolveTargets c iv.2)
          (healPhase c iv.1 iv.2.item (resolveTargets c iv.2) st))).1 =
      usedItemSpec c st iv.2 := by
  have hconf : (damagePhase c iv.1 iv.2.item (resolveTargets c iv.2)
      (healPhase c iv.1 iv.2.item (resolveTargets c iv.2) st)).2.confused = st.confused := by
    rw [damagePhase_confused, healPhase_confused]
  rw [confusionPhase_flag, damagePhase_flag, congrFun hconf iv.2.item]
  unfold usedItemSpec
  cases hd : (c.inflict_damage iv.2.item).isSome <;>
    cases hc : (st.confused iv.2.item).isSome <;> simp [hd, hc]

theorem useOne_positions (c : Ctx) (st : World) (iv : Entity × WantsToUseItem) :
    (useOne c st iv).positions = st.positions := by
  simp only [useOne]
  split <;>
    simp [confusionPhase_positions, damagePhase_positions, healPhase_positions]

theorem useOne_backpack (c : Ctx) (st : World) (iv : Entity × WantsToUseItem) :
    (useOne c st iv).backpack = st.backpack := by
  simp only [useOne]
  split <;>
    simp [confusionPhase_backpack, damagePhase_backpack, healPhase_backpack]

theorem useOne_wants_use (c : Ctx) (st : World) (iv : Entity × WantsToUseItem) :
    (useOne c st iv).wants_use = st.wants_use := by
  simp only [useOne]
  split <;>
    simp [confusionPhase_wants_use, damagePhase_wants_use, healPhase_wants_use]

theorem useOne_wants_drop (c : Ctx) (st : World) (iv : Entity × WantsToUseItem) :
    (useOne c st iv).wants_drop = st.wants_drop := by
  simp only [useOne]
  split <;>
    simp [confusionPhase_wants_drop, damagePhase_wants_drop, healPhase_wants_drop]

theorem useOne_wants_pickup (c : Ctx) (st : World) (iv : Entity × WantsToUseItem) :
    (useOne c st iv).wants_pickup = st.wants_pickup := by
  simp only [useOne]
  split <;>
    simp [confusionPhase_wants_pickup, damagePhase_wants_pickup, healPhase_wants_pickup]

/-- Processing one use-intent appends the item to the deletion list iff the
item counts as used and is a consumable, and deletes nothing else. -/
theorem useOne_deleted (c : Ctx) (st : World) (iv : Entity × WantsToUseItem) :
    (useOne c st iv).deleted = st.deleted ++
      (if usedItemSpec c st iv.2 && c.consumables iv.2.item
       then [iv.2.item] else []) := by
  simp only [useOne]
  rw [useOne_flag c st iv]
  have hdel : (confusionPhase c iv.1 iv.2.item (resolveTargets c iv.2)
      (damagePhase c iv.1 iv.2.item (resolveTargets c iv.2)
        (healPhase c iv.1 iv.2.item (resolveTargets c iv.2) st))).2.2.deleted = st.deleted := by
    rw [confusionPhase_deleted, damagePhase_deleted, healPhase_deleted]
  by_cases hu : (usedItemSpec c st iv.2 && c.consumables iv.2.item) = true
  · rw [if_pos hu, if_pos hu]
    simp [hdel]
  · rw [if_neg hu, if_neg hu]
    simp [hdel]

/-- The combat-stats storage after one use-intent is exactly what the healing
block produced: the damage and confusion blocks never touch it. -/
theorem useOne_stats (c : Ctx) (st : World) (iv : Entity × WantsToUseItem) :
    (useOne c st iv).combat_stats =
      (healPhase c iv.1 iv.2.item (resolveTargets c iv.2) st).combat_stats := by
  simp only [useOne]
  split <;> simp [confusionPhase_stats, damagePhase_stats]

/-- The confusion storage after one use-intent on an item that carries a
confusion effect: the pairs staged during the target iteration — one
`(target, turns)` pair per target, with the `turns` value the item carried
before the iteration — are committed, in order, onto the storage as it stood
before the commit loop. -/
theorem useOne_confused (c : Ctx) (st : World) (iv : Entity × WantsToUseItem)
    (confusion : Confusion) (hc : st.confused iv.2.item = some confusion) :
    (useOne c st iv).confused =
      commitConfusion
        ((resolveTargets c iv.2).map (fun t => (t, confusion.turns)))
        st.confused := by
  simp only [useOne]
  have hconf : (damagePhase c iv.1 iv.2.item (resolveTargets c iv.2)
      (healPhase c iv.1 iv.2.item (resolveTargets c iv.2) st)).2.confused = st.confused := by
    rw [damagePhase_confused, healPhase_confused]
  have hc2 : (damagePhase c iv.1 iv.2.item (resolveTargets c iv.2)
      (healPhase c iv.1 iv.2.item (resolveTargets c iv.2) st)).2.confused iv.2.item =
      some confusion := by
    rw [congrFun hconf iv.2.item]
    exact hc
  have hstaged := confusionPhase_staged c iv.1 iv.2.item (resolveTargets c iv.2) _
    confusion hc2
  have hcc : (confusionPhase c iv.1 iv.2.item (resolveTargets c iv.2)
      (damagePhase c iv.1 iv.2.item (resolveTargets c iv.2)
        (healPhase c iv.1 iv.2.item (resolveTargets c iv.2) st))).2.2.confused =
      st.confused := by
    rw [confusionPhase_confused, hconf]
  split <;> simp [hstaged, hcc]

/-! ## Monotonicity of hp under the healing block -/

/-- Every recorded actor satisfies `hp ≤ max_hp`. -/
def StatsInv (f : Entity → Option CombatStats) : Prop :=
  ∀ e s, f e = some s → s.hp ≤ s.max_hp

/-- Pointwise evolution of the stats storage: no actor appears or disappears,
`max_hp` is unchanged and `hp` never decreases. -/
def StatsMono (a b : Entity → Option CombatStats) : Prop :=
  ∀ e, (a e = none → b e = none) ∧
    ∀ s, a e = some s → ∃ s', b e = some s' ∧ s.hp ≤ s'.hp ∧ s'.max_hp = s.max_hp

theorem statsMono_refl (a : Entity → Option CombatStats) : StatsMono a a :=
  fun _ => ⟨fun h => h, fun s hs => ⟨s, hs, le_refl _, rfl⟩⟩

theorem statsMono_trans {a b c : Entity → Option CombatStats}
    (h1 : StatsMono a b) (h2 : StatsMono b c) : StatsMono a c := by
  intro e
  refine ⟨fun hn => (h2 e).1 ((h1 e).1 hn), fun s hs => ?_⟩
  obtain ⟨s', hb, hhp, hmax⟩ := (h1 e).2 s hs
  obtain ⟨s'', hcc, hhp2, hmax2⟩ := (h2 e).2 s' hb
  exact ⟨s'', hcc, le_trans hhp hhp2, hmax2.trans hmax⟩

theorem healStep_mono (c : Ctx) (entity item : Entity)
    (healer : ProvidesHealing) (st : World) (target : Entity)
    (hinv : StatsInv st.combat_stats) (hH : 0 ≤ healer.heal_amount) :
    StatsMono st.combat_stats (healStep c entity item healer st target).combat_stats ∧
    StatsInv (healStep c entity item healer st target).combat_stats := by
  rw [healStep_stats]
  cases hst : st.combat_stats target with
  | none =>
    simp only [hst]
    exact ⟨statsMono_refl _, hinv⟩
  | some stats =>
    simp only [hst]
    constructor
    · intro e
      by_cases he : e = target
      · subst he
        refine ⟨fun hn => absurd hn (by simp [hst]), fun s hs => ?_⟩
        rw [hst] at hs
        injection hs with hs
        subst hs
        refine ⟨_, upd_self _ _ _, ?_, rfl⟩
        exact le_min (hinv _ _ hst) (by linarith)
      · exact ⟨fun hn => by rw [upd_ne _ _ _ _ he]; exact hn,
          fun s hs => ⟨s, by rw [upd_ne _ _ _ _ he]; exact hs, le_refl _, rfl⟩⟩
    · intro e s hs
      by_cases he : e = target
      · subst he
        rw [upd_self] at hs
        injection hs with hs
        subst hs
        exact min_le_left _ _
      · rw [upd_ne _ _ _ _ he] at hs
        exact hinv _ _ hs

theorem healFold_mono (c : Ctx) (entity item : Entity)
    (healer : ProvidesHealing) (hH : 0 ≤ healer.heal_amount) :
    ∀ (l : List Entity) (st : World), StatsInv st.combat_stats →
      StatsMono st.combat_stats
        ((l.foldl (healStep c entity item healer) st)).combat_stats ∧
      StatsInv ((l.foldl (healStep c entity item healer) st)).combat_stats := by
  intro l
  induction l with
  | nil => exact fun st hinv => ⟨statsMono_refl _, hinv⟩
  | cons a t ih =>
    intro st hinv
    rw [List.foldl_cons]
    obtain ⟨m1, i1⟩ := healStep_mono c entity item healer st a hinv hH
    obtain ⟨m2, i2⟩ := ih _ i1
    exact ⟨statsMono_trans m1 m2, i2⟩

theorem healPhase_mono (c : Ctx) (entity item : Entity) (ts : List Entity)
    (st : World) (hinv : StatsInv st.combat_stats)
    (hHeal : ∀ h, c.healing item = some h → 0 ≤ h.heal_amount) :
    StatsMono st.combat_stats (healPhase c entity item ts st).combat_stats := by
  unfold healPhase
  cases hh : c.healing item with
  | none => exact statsMono_refl _
  | some healer => exact (healFold_mono c entity item healer (hHeal healer hh) ts st hinv).1

/-! ## Lemmas about the whole passes -/

theorem run_use_wants_use (c : Ctx) (st : World) :
    (ItemUseSystem.run c st).wants_use = st.wants_use :=
  foldl_proj_eq World.wants_use _ (fun s iv => useOne_wants_use c s iv)
    st.wants_use st

theorem run_use_positions (c : Ctx) (st : World) :
    (ItemUseSystem.run c st).positions = st.positions :=
  foldl_proj_eq World.positions _ (fun s iv => useOne_positions c s iv)
    st.wants_use st

theorem run_use_backpack (c : Ctx) (st : World) :
    (ItemUseSystem.run c st).backpack = st.backpack :=
  foldl_proj_eq World.backpack _ (fun s iv => useOne_backpack c s iv)
    st.wants_use st

/-- Across a whole use pass, the only entities newly marked deleted are items
of some processed use-intent. -/
theorem useFold_deleted (c : Ctx) :
    ∀ (l : List (Entity × WantsToUseItem)) (st : World) (e : Entity),
      e ∈ (l.foldl (useOne c) st).deleted →
      e ∈ st.deleted ∨ ∃ p ∈ l, e = p.2.item := by
  intro l
  induction l with
  | nil => exact fun st e he => Or.inl he
  | cons a t ih =>
    intro st e he
    rw [List.foldl_cons] at he
    rcases ih _ e he with h1 | ⟨p, hp, hpe⟩
    · rw [useOne_deleted] at h1
      rcases List.mem_append.mp h1 with h2 | h3
      · exact Or.inl h2
      · refine Or.inr ⟨a, List.mem_cons_self a t, ?_⟩
        by_cases hcnd : (usedItemSpec c st a.2 && c.consumables a.2.item) = true
        · rw [if_pos hcnd] at h3
          simpa using h3
        · rw [if_neg hcnd] at h3
          simp at h3
    · exact Or.inr ⟨p, List.mem_cons_of_mem a hp, hpe⟩

/-- A drop pass that completes ends with the drop-intent set cleared. -/
theorem dropList_clears (player_entity : Entity) (names : Entity → String) :
    ∀ (l : List (Entity × WantsToDropItem)) (st st' : World),
      dropList player_entity names l st = some st' → st'.wants_drop = [] := by
  intro l
  induction l with
  | nil =>
    intro st st' h
    rw [dropList] at h
    injection h with h
    rw [← h]
  | cons a t ih =>
    intro st st' h
    rw [dropList] at h
    cases hd : dropOne player_entity names st a with
    | none => rw [hd] at h; cases h
    | some st1 => rw [hd] at h; exact ih _ _ h

/-- `pickupOne` always removes the item's Position. -/
theorem pickupOne_positions (pe : Entity) (names : Entity → String)
    (st : World) (pickup : WantsToPickupItem) :
    (pickupOne pe names st pickup).positions = upd st.positions pickup.item none := by
  unfold pickupOne
  by_cases h : pickup.collected_by = pe <;> simp [h]

/-- `pickupOne` always inserts `InBackpack` with the collector as owner. -/
theorem pickupOne_backpack (pe : Entity) (names : Entity → String)
    (st : World) (pickup : WantsToPickupItem) :
    (pickupOne pe names st pickup).backpack =
      upd st.backpack pickup.item (some ⟨pickup.collected_by⟩) := by
  unfold pickupOne
  by_cases h : pickup.collected_by = pe <;> simp [h]

theorem pickupOne_wants_drop (pe : Entity) (names : Entity → String)
    (st : World) (pickup : WantsToPickupItem) :
    (pickupOne pe names st pickup).wants_drop = st.wants_drop := by
  unfold pickupOne
  by_cases h : pickup.collected_by = pe <;> simp [h]

/-- When the dropper has a Position, `dropOne` succeeds: the item gets a copy
of the dropper's Position and loses its `InBackpack`. -/
theorem dropOne_some (pe : Entity) (names : Entity → String) (st : World)
    (e : Entity) (d : WantsToDropItem) (pos : Position)
    (h : st.positions e = some pos) :
    ∃ st', dropOne pe names st (e, d) = some st' ∧
      st'.positions = upd st.positions d.item (some ⟨pos.x, pos.y⟩) ∧
      st'.backpack = upd st.backpack d.item none ∧
      st'.wants_drop = st.wants_drop := by
  unfold dropOne
  simp only [h]
  by_cases he : e = pe <;> simp [he]

/-! ## Concrete fixtures used to evaluate the theorems -/

def testNames : Entity → String := fun _ => "thing"

/-- A 5×5 map. Tile 12 = (2,2) holds entity 7, tile 13 = (3,2) holds entity
8, tile 5 = (0,1) holds entity 9 (a border tile), tile 14 = (4,2) holds
entity 10 (a border tile).  The black-box visibility query always reports
the four points (2,2), (3,2), (0,1), (4,2). -/
def testMap : Map :=
  { width := 5, height := 5,
    tile_content := fun idx =>
      if idx = 12 then [7] else if idx = 13 then [8] else
      if idx = 5 then [9] else if idx = 14 then [10] else [],
    fov := fun _ _ => [⟨2, 2⟩, ⟨3, 2⟩, ⟨0, 1⟩, ⟨4, 2⟩] }

/-- Player is entity 0.  Item 1 is a consumable healing potion
(`heal_amount = 8`); item 2 is an AoE damage item (`damage = 3`,
`radius = 2`); item 3 carries no read-only effect (its confusion effect
lives in the world's Confusion storage). -/
def testCtx : Ctx :=
  { player_entity := 0,
    map := testMap,
    names := testNames,
    consumables := fun e => e == 1,
    healing := fun e => if e = 1 then some ⟨8⟩ else none,
    inflict_damage := fun e => if e = 2 then some ⟨3⟩ else none,
    aoe := fun e => if e = 2 then some ⟨2⟩ else none }

/-- Entities 0 (the player) and 5 both have 5/10 hp; item 3 is a confusion
item with `turns = 4`; entity 7 already suffers a `turns = 2` confusion. -/
def testWorld : World :=
  { gamelog := [],
    wants_pickup := [],
    wants_drop := [],
    wants_use := [],
    positions := fun e => if e = 4 then some ⟨3, 3⟩ else none,
    backpack := fun _ => none,
    combat_stats := fun e =>
      if e = 0 then some ⟨10, 5⟩ else if e = 5 then some ⟨10, 5⟩ else none,
    suffer_damage := fun _ => none,
    confused := fun e =>
      if e = 3 then some ⟨4⟩ else if e = 7 then some ⟨2⟩ else none,
    deleted := [] }

/-- Round-trip fixture: actor 4 stands at (3,3); item 6 lies at (1,1); one
pickup intent and one drop intent, both about item 6 and actor 4. -/
def rtWorld : World :=
  { gamelog := [],
    wants_pickup := [⟨4, 6⟩],
    wants_drop := [(4, ⟨6⟩)],
    wants_use := [],
    positions := fun e =>
      if e = 4 then some ⟨3, 3⟩ else if e = 6 then some ⟨1, 1⟩ else none,
    backpack := fun _ => none,
    combat_stats := fun _ => none,
    suffer_damage := fun _ => none,
    confused := fun _ => none,
    deleted := [] }

/-- Two drop intents; the first dropper (entity 5) has no Position, the
second dropper (entity 6) stands at (1,1) and wants to drop item 8. -/
def c8World : World :=
  { gamelog := [],
    wants_pickup := [],
    wants_drop := [(5, ⟨7⟩), (6, ⟨8⟩)],
    wants_use := [],
    positions := fun e => if e = 6 then some ⟨1, 1⟩ else none,
    backpack := fun e =>
      if e = 7 then some ⟨5⟩ else if e = 8 then some ⟨6⟩ else none,
    combat_stats := fun _ => none,
    suffer_damage := fun _ => none,
    confused := fun _ => none,
    deleted := [] }

/-- `c8World` with only the second (well-formed) drop intent. -/
def c8WorldTail : World := { c8World with wants_drop := [(6, ⟨8⟩)] }

/-- The state the drop pass produces from `c8WorldTail`. -/
def c8Dropped : World :=
  { c8WorldTail with
    positions := upd c8WorldTail.positions 8 (some ⟨1, 1⟩),
    backpack := upd c8WorldTail.backpack 8 none,
    wants_drop := [] }

/-! ## The claims -/

/-- C1 counterexample: the claim says a use-intent with no aim point resolves
to the singleton containing the *requesting* actor.  In the code the
targeting block pushes `*player_entity` instead.  Concretely: the player is
entity 0, the requester of the intent is entity 5, and the no-aim use of
healing item 1 resolves to `[0]`, heals the player to 10/10 hp and leaves
the requester untouched at 5/10 hp — not the singleton `{5}` the claim
demands. -/
theorem C1_counterexample :
    resolveTargets testCtx ⟨1, none⟩ = [0] ∧
    testCtx.player_entity ≠ 5 ∧
    (useOne testCtx testWorld (5, ⟨1, none⟩)).combat_stats 5 =
      testWorld.combat_stats 5 ∧
    (useOne testCtx testWorld (5, ⟨1, none⟩)).combat_stats 0 = some ⟨10, 10⟩ := by
  refine ⟨by decide, by decide, by decide, by decide⟩

/-- C1 (amended): for every use-intent whose aim point is absent, the
Targeting Resolver produces exactly the singleton containing the designated
*player* entity — not the requester — regardless of which entity holds the
intent and regardless of any AreaOfEffect modifier on the item. -/
theorem C1_self_target_player (c : Ctx) (useitem : WantsToUseItem)
    (h : useitem.target = none) :
    resolveTargets c useitem = [c.player_entity] := by
  unfold resolveTargets
  rw [h]

/-- C1 witness: the amended theorem evaluated on the concrete fixture. -/
theorem C1_self_target_player_witness :
    resolveTargets testCtx ⟨1, none⟩ = [testCtx.player_entity] :=
  C1_self_target_player testCtx ⟨1, none⟩ rfl

/-- C2: for every use-intent, the item entity is appended to the deletion
list iff it is marked used and carries the Consumable tag, where "used" is:
conditional on the resolved target set being non-empty when the item carries
a damage or a confusion effect, and unconditionally `true` when it carries
neither (a pure-healing item is used even when it heals nobody). -/
theorem C2_consumption (c : Ctx) (st : World) (entity : Entity)
    (useitem : WantsToUseItem) :
    (useOne c st (entity, useitem)).deleted = st.deleted ++
      (if usedItemSpec c st useitem && c.consumables useitem.item
       then [useitem.item] else []) :=
  useOne_deleted c st (entity, useitem)

/-- C3: applying the healing loop body to a target that has combat stats with
`hp ≤ max_hp` sets `hp` to `min(max_hp, hp + heal_amount)`; in particular
the new hp never exceeds `max_hp`, and at full health a (non-negative) heal
leaves hp unchanged. -/
theorem C3_healing_cap (c : Ctx) (entity item : Entity)
    (healer : ProvidesHealing) (st : World) (target : Entity)
    (stats : CombatStats) (hs : st.combat_stats target = some stats)
    (_hle : stats.hp ≤ stats.max_hp) :
    ∃ stats', (healStep c entity item healer st target).combat_stats target = some stats' ∧
      stats'.hp = min stats.max_hp (stats.hp + healer.heal_amount) ∧
      stats'.max_hp = stats.max_hp ∧
      stats'.hp ≤ stats.max_hp ∧
      (stats.hp = stats.max_hp → 0 ≤ healer.heal_amount → stats'.hp = stats.hp) := by
  rw [healStep_stats]
  simp only [hs]
  refine ⟨_, upd_self _ _ _, rfl, rfl, min_le_left _ _, ?_⟩
  intro hmax hH
  show min stats.max_hp (stats.hp + healer.heal_amount) = stats.hp
  rw [hmax]
  exact min_eq_left (by linarith)

/-- C3 witness: a 5/10 hp actor healed by 8 ends at `min 10 (5+8) = 10`. -/
theorem C3_healing_cap_witness :
    (testWorld.combat_stats 5 = some ⟨10, 5⟩) ∧
    ((5:Int) ≤ 10) ∧
    ∃ stats', (healStep testCtx 0 1 ⟨8⟩ testWorld 5).combat_stats 5 = some stats' ∧
      stats'.hp = min (10:Int) (5 + 8) ∧
      stats'.max_hp = 10 ∧
      stats'.hp ≤ 10 ∧
      ((5:Int) = 10 → (0:Int) ≤ 8 → stats'.hp = 5) :=
  ⟨by decide, by decide,
    C3_healing_cap testCtx 0 1 ⟨8⟩ testWorld 5 ⟨10, 5⟩ (by decide) (by decide)⟩

/-- C4: item-use processing never decreases any actor's hp (given every
recorded actor satisfies `hp ≤ max_hp` and the item's heal amount, if any,
is non-negative); the damage block never writes the combat-stats storage at
all; and the pending-damage write is purely additive — the new total is the
prior accumulation plus the item's damage, entries of other entities are
untouched. -/
theorem C4_damage_only_enqueues (c : Ctx) (st : World) (entity : Entity)
    (useitem : WantsToUseItem)
    (hinv : ∀ e s, st.combat_stats e = some s → s.hp ≤ s.max_hp)
    (hHeal : ∀ h, c.healing useitem.item = some h → 0 ≤ h.heal_amount) :
    (∀ e s, st.combat_stats e = some s →
      ∃ s', (useOne c st (entity, useitem)).combat_stats e = some s' ∧ s.hp ≤ s'.hp) ∧
    (∀ (targets : List Entity) (st1 : World),
      (damagePhase c entity useitem.item targets st1).2.combat_stats = st1.combat_stats) ∧
    (∀ (store : Entity → Option SufferDamage) (victim : Entity) (amount : Int),
      (∀ prior, store victim = some prior →
        SufferDamage.new_damage store victim amount victim = some ⟨prior.amount + amount⟩) ∧
      (store victim = none →
        SufferDamage.new_damage store victim amount victim = some ⟨amount⟩) ∧
      (∀ e, e ≠ victim → SufferDamage.new_damage store victim amount e = store e)) := by
  refine ⟨?_, ?_, ?_⟩
  · intro e s hs
    have hmono := healPhase_mono c entity useitem.item (resolveTargets c useitem) st hinv hHeal
    rw [useOne_stats]
    obtain ⟨s', hb, hhp, _⟩ := (hmono e).2 s hs
    exact ⟨s', hb, hhp⟩
  · exact fun targets st1 => damagePhase_stats c entity useitem.item targets st1
  · intro store victim amount
    refine ⟨?_, ?_, ?_⟩
    · intro prior hpr
      unfold SufferDamage.new_damage
      simp only [hpr]
      exact upd_self _ _ _
    · intro hn
      unfold SufferDamage.new_damage
      simp only [hn]
      exact upd_self _ _ _
    · intro e he
      unfold SufferDamage.new_damage
      cases store victim <;> exact upd_ne _ _ _ _ he

/-- C4 witness: the theorem applied to the concrete fixture (player 0 uses
healing item 1 on itself). -/
theorem C4_damage_only_enqueues_witness :
    (∀ e s, testWorld.combat_stats e = some s →
      ∃ s', (useOne testCtx testWorld (0, ⟨1, none⟩)).combat_stats e = some s' ∧ s.hp ≤ s'.hp) ∧
    (∀ (targets : List Entity) (st1 : World),
      (damagePhase testCtx 0 1 targets st1).2.combat_stats = st1.combat_stats) ∧
    (∀ (store : Entity → Option SufferDamage) (victim : Entity) (amount : Int),
      (∀ prior, store victim = some prior →
        SufferDamage.new_damage store victim amount victim = some ⟨prior.amount + amount⟩) ∧
      (store victim = none →
        SufferDamage.new_damage store victim amount victim = some ⟨amount⟩) ∧
      (∀ e, e ≠ victim → SufferDamage.new_damage store victim amount e = store e)) :=
  C4_damage_only_enqueues testCtx testWorld 0 ⟨1, none⟩
    (by
      intro e s hs
      by_cases h0 : e = 0
      · subst h0
        have hs2 : some (⟨10, 5⟩ : CombatStats) = some s := hs
        injection hs2 with hs2
        subst hs2
        decide
      · by_cases h5 : e = 5
        · subst h5
          have hs2 : some (⟨10, 5⟩ : CombatStats) = some s := hs
          injection hs2 with hs2
          subst hs2
          decide
        · simp [testWorld, h0, h5] at hs)
    (by
      intro h hh
      have hh2 : some (⟨8⟩ : ProvidesHealing) = some h := hh
      injection hh2 with hh2
      subst hh2
      decide)

/-- C5: for a use-intent on an item carrying a confusion effect, the final
Confusion storage is the pre-iteration storage with one staged
`(target, turns)` pair per resolved target committed onto it (staging covers
the whole target iteration before any insertion happens, with the item's
pre-iteration `turns` value); in particular every target ends up with
exactly the item's `turns` — a last-write-wins overwrite, never a sum with a
pre-existing status. -/
theorem C5_confusion_overwrite (c : Ctx) (st : World) (entity : Entity)
    (useitem : WantsToUseItem) (confusion : Confusion)
    (hc : st.confused useitem.item = some confusion) :
    ((useOne c st (entity, useitem)).confused =
      commitConfusion
        ((resolveTargets c useitem).map (fun t => (t, confusion.turns)))
        st.confused) ∧
    (∀ t, t ∈ resolveTargets c useitem →
      (useOne c st (entity, useitem)).confused t = some ⟨confusion.turns⟩) := by
  refine ⟨useOne_confused c st (entity, useitem) confusion hc, ?_⟩
  intro t ht
  rw [useOne_confused c st (entity, useitem) confusion hc]
  exact commitConfusion_mem_const _ _ _ _ ht

/-- C5 witness: confusion item 3 (`turns = 4`) aimed at the tile holding
entity 7, which already suffers a `turns = 2` confusion: the result is
`turns = 4`, not `6`. -/
theorem C5_confusion_overwrite_witness :
    (testWorld.confused 3 = some ⟨4⟩) ∧
    (testWorld.confused 7 = some ⟨2⟩) ∧
    (((useOne testCtx testWorld (0, ⟨3, some ⟨2, 2⟩⟩)).confused =
        commitConfusion
          ((resolveTargets testCtx ⟨3, some ⟨2, 2⟩⟩).map (fun t => (t, (4:Int))))
          testWorld.confused) ∧
      (∀ t, t ∈ resolveTargets testCtx ⟨3, some ⟨2, 2⟩⟩ →
        (useOne testCtx testWorld (0, ⟨3, some ⟨2, 2⟩⟩)).confused t = some ⟨4⟩)) ∧
    (useOne testCtx testWorld (0, ⟨3, some ⟨2, 2⟩⟩)).confused 7 = some ⟨4⟩ :=
  ⟨by decide, by decide,
    C5_confusion_overwrite testCtx testWorld 0 ⟨3, some ⟨2, 2⟩⟩ ⟨4⟩ (by decide),
    by decide⟩

/-- For an in-bounds point, the code's strict-interior test
(`0 < x < width-1`, `0 < y < height-1`) coincides with the spec's
border-equality exclusion (`x` or `y` equal to `0`, `width-1`, `height-1`). -/
theorem interior_filter_eq (w h : Int) (p : Point)
    (h1 : 0 ≤ p.x) (h2 : p.x ≤ w - 1) (h3 : 0 ≤ p.y) (h4 : p.y ≤ h - 1) :
    (decide (0 < p.x) && decide (p.x < w - 1) &&
     decide (0 < p.y) && decide (p.y < h - 1)) =
    !(decide (p.x = 0) || decide (p.x = w - 1) ||
      decide (p.y = 0) || decide (p.y = h - 1)) := by
  by_cases e1 : p.x = 0 <;> by_cases e2 : p.x = w - 1 <;>
    by_cases e3 : p.y = 0 <;> by_cases e4 : p.y = h - 1 <;>
    (simp [e1, e2, e3, e4]; try omega)

/-- C6: when a use-intent has an aim point and the item carries an
AreaOfEffect modifier, the resolved target list is the concatenation of the
occupants of the points reported visible from the aim point within the
radius after excluding every point whose `x` or `y` coordinate equals `0`,
`width-1` or `height-1` (assuming the visibility query reports only
in-bounds points); and no border point survives the code's filter, so no
entity standing on one is ever targeted. -/
theorem C6_aoe_border (c : Ctx) (useitem : WantsToUseItem) (target : Point)
    (area : AreaOfEffect) (ht : useitem.target = some target)
    (ha : c.aoe useitem.item = some area)
    (hfov : ∀ p ∈ c.map.fov target area.radius,
      0 ≤ p.x ∧ p.x ≤ c.map.width - 1 ∧ 0 ≤ p.y ∧ p.y ≤ c.map.height - 1) :
    (resolveTargets c useitem =
      ((c.map.fov target area.radius).filter
        (fun p => !(decide (p.x = 0) || decide (p.x = c.map.width - 1) ||
                    decide (p.y = 0) || decide (p.y = c.map.height - 1)))).flatMap
        (fun p => c.map.tile_content (c.map.xy_idx p.x p.y))) ∧
    (∀ p ∈ c.map.fov target area.radius,
      (p.x = 0 ∨ p.x = c.map.width - 1 ∨ p.y = 0 ∨ p.y = c.map.height - 1) →
      p ∉ (c.map.fov target area.radius).filter
        (fun p => decide (0 < p.x) && decide (p.x < c.map.width - 1) &&
                  decide (0 < p.y) && decide (p.y < c.map.height - 1))) := by
  constructor
  · unfold resolveTargets
    rw [ht]
    simp only [ha]
    congr 1
    apply List.filter_congr
    intro p hp
    obtain ⟨h1, h2, h3, h4⟩ := hfov p hp
    exact interior_filter_eq c.map.width c.map.height p h1 h2 h3 h4
  · intro p hp hborder hmem
    have hpred := (List.mem_filter.mp hmem).2
    simp only [Bool.and_eq_true, decide_eq_true_eq] at hpred
    obtain ⟨⟨⟨b1, b2⟩, b3⟩, b4⟩ := hpred
    rcases hborder with e | e | e | e <;> omega

/-- C6 witness: AoE item 2 (radius 2) aimed at (2,2) on the 5×5 fixture map:
the visibility query reports (2,2), (3,2), (0,1), (4,2); the two border
points (x = 0 and x = width-1) are excluded, so exactly the occupants 7 and
8 of the two interior points are targeted — never border occupants 9, 10. -/
theorem C6_aoe_border_witness :
    (resolveTargets testCtx ⟨2, some ⟨2, 2⟩⟩ = [7, 8]) ∧
    ((resolveTargets testCtx ⟨2, some ⟨2, 2⟩⟩ =
      ((testCtx.map.fov ⟨2, 2⟩ (⟨2⟩ : AreaOfEffect).radius).filter
        (fun p => !(decide (p.x = 0) || decide (p.x = testCtx.map.width - 1) ||
                    decide (p.y = 0) || decide (p.y = testCtx.map.height - 1)))).flatMap
        (fun p => testCtx.map.tile_content (testCtx.map.xy_idx p.x p.y))) ∧
     (∀ p ∈ testCtx.map.fov ⟨2, 2⟩ (⟨2⟩ : AreaOfEffect).radius,
       (p.x = 0 ∨ p.x = testCtx.map.width - 1 ∨ p.y = 0 ∨ p.y = testCtx.map.height - 1) →
       p ∉ (testCtx.map.fov ⟨2, 2⟩ (⟨2⟩ : AreaOfEffect).radius).filter
         (fun p => decide (0 < p.x) && decide (p.x < testCtx.map.width - 1) &&
                   decide (0 < p.y) && decide (p.y < testCtx.map.height - 1)))) :=
  ⟨by decide,
    C6_aoe_border testCtx ⟨2, some ⟨2, 2⟩⟩ ⟨2, 2⟩ ⟨2⟩ rfl rfl (by decide)⟩

/-- C7: pickup removes the item's Position and inserts `InBackpack` owned by
the collector; drop removes `InBackpack` and inserts a Position copied from
the dropping actor's current Position.  Hence running the pickup pass and
then the drop pass, with the actor standing at `(x, y)`, leaves the item
with Position `(x, y)` and no `InBackpack`; in between, the item has no
Position and is in the actor's backpack. -/
theorem C7_pickup_drop_roundtrip (player_entity : Entity)
    (names : Entity → String) (actor item : Entity) (x y : Int) (st : World)
    (hne : item ≠ actor)
    (hpos : st.positions actor = some ⟨x, y⟩)
    (hpk : st.wants_pickup = [⟨actor, item⟩])
    (hdr : st.wants_drop = [(actor, ⟨item⟩)]) :
    ((ItemCollectionSystem.run player_entity names st).positions item = none ∧
     (ItemCollectionSystem.run player_entity names st).backpack item = some ⟨actor⟩) ∧
    ∃ st2, ItemDropSystem.run player_entity names
        (ItemCollectionSystem.run player_entity names st) = some st2 ∧
      st2.positions item = some ⟨x, y⟩ ∧ st2.backpack item = none := by
  have hrun1 : ItemCollectionSystem.run player_entity names st =
      { pickupOne player_entity names st ⟨actor, item⟩ with wants_pickup := [] } := by
    simp only [ItemCollectionSystem.run]
    rw [hpk]
    rfl
  have hp1 : (ItemCollectionSystem.run player_entity names st).positions item = none := by
    rw [hrun1]
    show (pickupOne player_entity names st ⟨actor, item⟩).positions item = none
    rw [pickupOne_positions]
    exact upd_self _ _ _
  have hb1 : (ItemCollectionSystem.run player_entity names st).backpack item = some ⟨actor⟩ := by
    rw [hrun1]
    show (pickupOne player_entity names st ⟨actor, item⟩).backpack item = some ⟨actor⟩
    rw [pickupOne_backpack]
    exact upd_self _ _ _
  have hpos1 : (ItemCollectionSystem.run player_entity names st).positions actor = some ⟨x, y⟩ := by
    rw [hrun1]
    show (pickupOne player_entity names st ⟨actor, item⟩).positions actor = some ⟨x, y⟩
    rw [pickupOne_positions]
    rw [upd_ne _ _ _ _ (Ne.symm hne)]
    exact hpos
  have hwd1 : (ItemCollectionSystem.run player_entity names st).wants_drop = [(actor, ⟨item⟩)] := by
    rw [hrun1]
    show (pickupOne player_entity names st ⟨actor, item⟩).wants_drop = _
    rw [pickupOne_wants_drop]
    exact hdr
  obtain ⟨st2', hdo, hdpos, hdbp, _⟩ :=
    dropOne_some player_entity names (ItemCollectionSystem.run player_entity names st)
      actor ⟨item⟩ ⟨x, y⟩ hpos1
  refine ⟨⟨hp1, hb1⟩, ⟨{ st2' with wants_drop := [] }, ?_, ?_, ?_⟩⟩
  · unfold ItemDropSystem.run
    rw [hwd1]
    simp only [dropList, hdo]
  · show st2'.positions item = some ⟨x, y⟩
    rw [hdpos]
    exact upd_self _ _ _
  · show st2'.backpack item = none
    rw [hdbp]
    exact upd_self _ _ _

/-- C7 witness: item 6 picked up from (1,1) by actor 4 standing at (3,3) and
dropped again ends at (3,3) with no backpack component. -/
theorem C7_pickup_drop_roundtrip_witness :
    ((ItemCollectionSystem.run 0 testNames rtWorld).positions 6 = none ∧
     (ItemCollectionSystem.run 0 testNames rtWorld).backpack 6 = some ⟨4⟩) ∧
    ∃ st2, ItemDropSystem.run 0 testNames
        (ItemCollectionSystem.run 0 testNames rtWorld) = some st2 ∧
      st2.positions 6 = some ⟨3, 3⟩ ∧ st2.backpack 6 = none :=
  C7_pickup_drop_roundtrip 0 testNames 4 6 3 3 rtWorld (by decide) rfl rfl rfl

/-- C8 counterexample: the claim says a drop-intent whose actor lacks a
Position aborts only that intent while the rest of the pass is still
processed.  In the code the lookup is an `unwrap()`: the panic aborts the
whole pass.  Concretely, with two drop intents where only the first dropper
lacks a Position, the pass produces no final state at all (`none`) — while
the second intent alone would succeed and give its item Position (1,1). -/
theorem C8_counterexample :
    ItemDropSystem.run 0 testNames c8World = none ∧
    (ItemDropSystem.run 0 testNames c8WorldTail).isSome = true ∧
    (ItemDropSystem.run 0 testNames c8WorldTail).bind (fun s => s.positions 8) =
      some ⟨1, 1⟩ :=
  ⟨rfl, rfl, rfl⟩

/-- C8 (amended): when the first pending drop-intent's actor lacks a
Position component, the `unwrap()` panics and the entire drop pass is
aborted: no state is produced, no further drop-intents are processed, and
the intent set is not cleared.  The error is loud, not silently ignored. -/
theorem C8_drop_missing_position_aborts_pass (player_entity : Entity)
    (names : Entity → String) (st : World) (e : Entity) (d : WantsToDropItem)
    (rest : List (Entity × WantsToDropItem))
    (hw : st.wants_drop = (e, d) :: rest)
    (hpn : st.positions e = none) :
    ItemDropSystem.run player_entity names st = none := by
  unfold ItemDropSystem.run
  rw [hw]
  simp only [dropList, dropOne, hpn]

/-- C8 witness: the amended theorem evaluated on the concrete fixture. -/
theorem C8_drop_missing_position_aborts_pass_witness :
    (c8World.wants_drop = (5, ⟨7⟩) :: [(6, ⟨8⟩)]) ∧
    (c8World.positions 5 = none) ∧
    ItemDropSystem.run 0 testNames c8World = none :=
  ⟨rfl, rfl,
    C8_drop_missing_position_aborts_pass 0 testNames c8World 5 ⟨7⟩ [(6, ⟨8⟩)] rfl rfl⟩

/-- C9: one run of the pickup pass leaves the pickup-intent set empty; one
(completed) run of the drop pass leaves the drop-intent set empty; the
item-use pass never removes or clears use-intents. -/
theorem C9_intent_clearing (player_entity : Entity) (names : Entity → String)
    (c : Ctx) (st stD : World)
    (hdrop : ItemDropSystem.run player_entity names st = some stD) :
    (ItemCollectionSystem.run player_entity names st).wants_pickup = [] ∧
    stD.wants_drop = [] ∧
    (ItemUseSystem.run c st).wants_use = st.wants_use :=
  ⟨rfl, dropList_clears player_entity names st.wants_drop st stD hdrop,
    run_use_wants_use c st⟩

/-- C9 witness: the theorem evaluated on the concrete drop fixture. -/
theorem C9_intent_clearing_witness :
    (ItemDropSystem.run 0 testNames c8WorldTail = some c8Dropped) ∧
    ((ItemCollectionSystem.run 0 testNames c8WorldTail).wants_pickup = [] ∧
     c8Dropped.wants_drop = [] ∧
     (ItemUseSystem.run testCtx c8WorldTail).wants_use = c8WorldTail.wants_use) :=
  ⟨rfl, C9_intent_clearing 0 testNames testCtx c8WorldTail c8Dropped rfl⟩

/-- C10: the item-use pass never changes any entity's Position or
`InBackpack` component, whatever the intents, effects and targets; the only
lifecycle change is that the entities newly marked deleted are exactly
(some of) the used items of the processed use-intents. -/
theorem C10_use_pass_frame (c : Ctx) (st : World) :
    ((ItemUseSystem.run c st).positions = st.positions) ∧
    ((ItemUseSystem.run c st).backpack = st.backpack) ∧
    (∀ e, e ∈ (ItemUseSystem.run c st).deleted →
      e ∈ st.deleted ∨ ∃ p ∈ st.wants_use, e = p.2.item) :=
  ⟨run_use_positions c st, run_use_backpack c st,
    fun e he => useFold_deleted c st.wants_use st e he⟩

end RogueInv
